import Mathlib

/-!
Verification of the shunting-yard calculator (`src/calculator.c`).

The development shallowly embeds the C source:
* machine doubles are modelled as exact rationals (`ℚ`); the source never
  relies on rounding, infinities or NaNs in the claims treated here;
* the character buffer is a `List Char` together with a cursor index,
  mirroring the C `InputBuffer` (`buf`, `idx`; `len` is the list length);
  characters are treated as ASCII, matching the C-locale `ctype` tests;
* the singly linked `Value` chain of the C `ValueRepo` is modelled as a
  `List Value`; nullable pointers become `Option`;
* `convert` and `solve` are stubs in the C file (the spec notes this), so
  they are modelled from the spec's §4.2/§4.3 algorithm descriptions and
  clearly marked as such.
-/

deriving instance DecidableEq for Except

namespace Calculator

/-- Token types, mirroring the C `TokType` enumeration. -/
inductive TokType where
  | T_END_BUF
  | T_ERROR
  | T_PLUS
  | T_MINUS
  | T_STAR
  | T_SLASH
  | T_PERC
  | T_CARAT
  | T_LT
  | T_GT
  | T_LTE
  | T_GTE
  | T_EQU
  | T_NEQU
  | T_EQUAL
  | T_OPAREN
  | T_CPAREN
  | T_NOT
  | T_AND
  | T_OR
  | T_NUM
  | T_SYM
  deriving DecidableEq, Repr

open TokType

/-- The current token, mirroring the C `Token` struct (`type`, `str`).
The `str` field is the accumulated text, kept as a character list. -/
structure Token where
  type : TokType
  str : List Char
  deriving DecidableEq, Repr

/-- The C `InputBuffer`: character contents plus the cursor `idx`.  The C
`len` field is `buf.length`; `cap` is a memory-management detail with no
observable effect and is omitted. -/
structure InputBuffer where
  buf : List Char
  idx : Nat
  deriving DecidableEq, Repr

/-- `read_char`: return the character at the cursor, or none (-1 in C)
at end of buffer. -/
def read_char (b : InputBuffer) : Option Char :=
  b.buf[b.idx]?

/-- `consume_char`: advance the cursor by one if not at end of buffer. -/
def consume_char (b : InputBuffer) : InputBuffer :=
  if b.idx < b.buf.length then { b with idx := b.idx + 1 } else b

/-- Whitespace skipped by the tokenizer loop: the C `switch` consumes
`' '` and `'\t'` without emitting a token. -/
def is_ws (c : Char) : Bool :=
  c = ' ' || c = '\t'

/-- The whitespace-skipping behaviour of the `consume_token` loop: the
cursor advances past the maximal run of blanks and tabs. -/
def skip_ws (b : InputBuffer) : InputBuffer :=
  { b with idx := b.idx + ((b.buf.drop b.idx).takeWhile is_ws).length }

/-- `read_symbol`: consume the maximal run of alphabetic or underscore
characters at the cursor, returning the accumulated text. -/
def read_symbol (b : InputBuffer) : List Char × InputBuffer :=
  let txt := (b.buf.drop b.idx).takeWhile (fun c => c.isAlpha || c = '_')
  (txt, { b with idx := b.idx + txt.length })

/-- `read_number`: consume the maximal run of digit or decimal-point
characters at the cursor, returning the accumulated text. -/
def read_number (b : InputBuffer) : List Char × InputBuffer :=
  let txt := (b.buf.drop b.idx).takeWhile (fun c => c.isDigit || c = '.')
  (txt, { b with idx := b.idx + txt.length })

/-- Result of one `consume_token` call: the token type and accumulated
text (the C locals `ttype` and `buf`), the character reported to stderr
by the unhandled-character branch (if any), and the final buffer. -/
structure TokResult where
  ttype : TokType
  text : List Char
  diag : Option Char
  buf : InputBuffer
  deriving DecidableEq, Repr

/-- Dispatch of `consume_token` on the first significant character,
exactly as the C `switch` does (the two-character operators test the
next character with `if(ch == '=')`). -/
def dispatch_token (b : InputBuffer) : TokResult :=
  match read_char b with
  | none => ⟨T_END_BUF, [], none, b⟩
  | some c =>
    if c = '+' then ⟨T_PLUS, [c], none, consume_char b⟩
    else if c = '-' then ⟨T_MINUS, [c], none, consume_char b⟩
    else if c = '*' then ⟨T_STAR, [c], none, consume_char b⟩
    else if c = '/' then ⟨T_SLASH, [c], none, consume_char b⟩
    else if c = '%' then ⟨T_PERC, [c], none, consume_char b⟩
    else if c = '^' then ⟨T_CARAT, [c], none, consume_char b⟩
    else if c = '(' then ⟨T_OPAREN, [c], none, consume_char b⟩
    else if c = ')' then ⟨T_CPAREN, [c], none, consume_char b⟩
    else if c = '<' then
      let b1 := consume_char b
      if read_char b1 = some '=' then ⟨T_LTE, [c, '='], none, consume_char b1⟩
      else ⟨T_LT, [c], none, b1⟩
    else if c = '>' then
      let b1 := consume_char b
      if read_char b1 = some '=' then ⟨T_GTE, [c, '='], none, consume_char b1⟩
      else ⟨T_GT, [c], none, b1⟩
    else if c = '=' then
      let b1 := consume_char b
      if read_char b1 = some '=' then ⟨T_EQU, [c, '='], none, consume_char b1⟩
      else ⟨T_EQUAL, [c], none, b1⟩
    else if c = '!' then
      let b1 := consume_char b
      if read_char b1 = some '=' then ⟨T_NEQU, [c, '='], none, consume_char b1⟩
      else ⟨T_NOT, [c], none, b1⟩
    else if c.isAlpha || c = '_' then
      let (txt, b') := read_symbol b
      ⟨T_SYM, txt, none, b'⟩
    else if c.isDigit then
      let (txt, b') := read_number b
      ⟨T_NUM, txt, none, b'⟩
    else
      -- C: consume the character, print "Unhandled character ignored"
      -- to stderr (recorded in `diag`), emit T_ERROR; `buf` was never
      -- written, so the token text stays empty.
      ⟨T_ERROR, [], some c, consume_char b⟩

/-- Core of `consume_token`: the loop skips whitespace (its only
non-terminating branches), then dispatches on the first significant
character. -/
def consume_token_core (b0 : InputBuffer) : TokResult :=
  dispatch_token (skip_ws b0)

/-- Tokenizer-visible global state: the input buffer and the global
current token `tok`. -/
structure TokState where
  buffer : InputBuffer
  tok : Token
  deriving DecidableEq, Repr

/-- `consume_token`: read one token from the buffer and store it in the
global `tok` (type and freshly copied text). -/
def consume_token (s : TokState) : TokState :=
  let r := consume_token_core s.buffer
  { buffer := r.buf, tok := { type := r.ttype, str := r.text } }

/-!  Exact rational arithmetic with kernel-reducible implementations.

The C program computes on doubles; the model uses exact rationals.  The
Mathlib/Batteries rational operations are `@[irreducible]`, which blocks
`decide`-style evaluation of concrete runs, so the model carries its own
normalising constructor and operations, each proved equal to the
corresponding field operation on `ℚ`. -/

/-- Build the reduced rational `n / dn` for a positive denominator. -/
def ratNormAux (n : Int) (dn : Nat) (hdn : dn ≠ 0) : ℚ :=
  Rat.mk' (n / (Nat.gcd n.natAbs dn : Int)) (dn / Nat.gcd n.natAbs dn)
    (by
      have hg : 0 < Nat.gcd n.natAbs dn :=
        Nat.gcd_pos_of_pos_right _ (Nat.pos_of_ne_zero hdn)
      have hle : Nat.gcd n.natAbs dn ≤ dn :=
        Nat.le_of_dvd (Nat.pos_of_ne_zero hdn) (Nat.gcd_dvd_right _ _)
      have := Nat.div_pos hle hg
      omega)
    (by
      have hg : 0 < Nat.gcd n.natAbs dn :=
        Nat.gcd_pos_of_pos_right _ (Nat.pos_of_ne_zero hdn)
      have hdvd : ((Nat.gcd n.natAbs dn : Nat) : Int) ∣ n :=
        Int.dvd_natAbs.mp (Int.natCast_dvd_natCast.mpr (Nat.gcd_dvd_left _ _))
      rw [Int.natAbs_ediv n _ hdvd, Int.natAbs_ofNat]
      exact Nat.coprime_div_gcd_div_gcd hg)

/-- Normalised rational `n / d` (0 when `d = 0`, matching `Rat.divInt`). -/
def ratNorm (n d : Int) : ℚ :=
  if hd : d = 0 then 0
  else ratNormAux (if d < 0 then -n else n) d.natAbs (Int.natAbs_ne_zero.mpr hd)

lemma ratNormAux_divInt (n : Int) (dn : Nat) (hdn : dn ≠ 0) :
    ratNormAux n dn hdn = Rat.divInt n (dn : Int) := by
  have hg : 0 < Nat.gcd n.natAbs dn :=
    Nat.gcd_pos_of_pos_right _ (Nat.pos_of_ne_zero hdn)
  have hgz : ((Nat.gcd n.natAbs dn : Nat) : Int) ≠ 0 := by
    exact_mod_cast Nat.pos_iff_ne_zero.mp hg
  have hdvdn : ((Nat.gcd n.natAbs dn : Nat) : Int) ∣ n :=
    Int.dvd_natAbs.mp (Int.natCast_dvd_natCast.mpr (Nat.gcd_dvd_left _ _))
  have hdvdd : Nat.gcd n.natAbs dn ∣ dn := Nat.gcd_dvd_right _ _
  rw [ratNormAux, Rat.mk'_eq_divInt, ← Rat.divInt_mul_right hgz]
  congr 1
  · exact Int.ediv_mul_cancel hdvdn
  · exact_mod_cast congrArg (Nat.cast : Nat → Int) (Nat.div_mul_cancel hdvdd)

lemma ratNorm_divInt (n d : Int) : ratNorm n d = Rat.divInt n d := by
  unfold ratNorm
  by_cases hd : d = 0
  · subst hd
    rw [dif_pos rfl, Rat.divInt_zero]
  · rw [dif_neg hd, ratNormAux_divInt]
    by_cases hneg : d < 0
    · rw [if_pos hneg, Int.ofNat_natAbs_of_nonpos (Int.le_of_lt hneg),
        Rat.neg_divInt_neg]
    · rw [if_neg hneg, Int.natAbs_of_nonneg (Int.not_lt.mp hneg)]

/-- `ratNorm` is exact division on `ℚ`. -/
lemma ratNorm_eq_div (n d : Int) : ratNorm n d = (n : ℚ) / (d : ℚ) := by
  rw [ratNorm_divInt, Rat.divInt_eq_div]

/-- Reducible negation on `ℚ`. -/
def qneg (a : ℚ) : ℚ := ratNorm (-a.num) a.den

/-- Reducible addition on `ℚ`. -/
def qadd (a b : ℚ) : ℚ :=
  ratNorm (a.num * b.den + b.num * a.den) (a.den * b.den)

/-- Reducible subtraction on `ℚ`. -/
def qsub (a b : ℚ) : ℚ := qadd a (qneg b)

/-- Reducible multiplication on `ℚ`. -/
def qmul (a b : ℚ) : ℚ := ratNorm (a.num * b.num) (a.den * b.den)

/-- Reducible division on `ℚ`. -/
def qdiv (a b : ℚ) : ℚ := ratNorm (a.num * b.den) (a.den * b.num)

lemma qneg_eq (a : ℚ) : qneg a = -a := by
  rw [qneg, ratNorm_divInt, ← Rat.neg_divInt, Rat.num_divInt_den]

lemma qadd_eq (a b : ℚ) : qadd a b = a + b := by
  rw [qadd, ratNorm_divInt, Rat.add_num_den a b]
  congr 1
  ring

lemma qmul_eq (a b : ℚ) : qmul a b = a * b := by
  rw [qmul, ratNorm_divInt, ← Rat.divInt_mul_divInt', Rat.num_divInt_den,
    Rat.num_divInt_den]

lemma qsub_eq (a b : ℚ) : qsub a b = a - b := by
  rw [qsub, qadd_eq, qneg_eq, sub_eq_add_neg]

lemma qdiv_eq (a b : ℚ) : qdiv a b = a / b := by
  rw [qdiv, ratNorm_divInt, div_eq_mul_inv]
  conv_rhs => rw [← Rat.num_divInt_den a, ← Rat.num_divInt_den b]
  rw [Rat.inv_divInt', Rat.divInt_mul_divInt']

/-!  Numeric parsing (`str_to_num` over `strtod`). -/

/-- The whitespace class skipped by `strtod` (C `isspace`). -/
def is_space (c : Char) : Bool :=
  c = ' ' || c = '\t' || c = '\n' || c = '\r' || c = '\x0b' || c = '\x0c'

/-- Value of a digit string, most significant digit first. -/
def digitsVal (ds : List Char) : Nat :=
  ds.foldl (fun a c => a * 10 + (c.toNat - 48)) 0

/-- Model of C `strtod` on decimal input: skip whitespace, optional
sign, integer digits, optional fraction after a decimal point, optional
exponent (consumed only when it has at least one digit).  Returns the
parsed value and the unconsumed remainder (the C end pointer); when no
conversion is possible the value is `0` and the remainder is the whole
input.  Hexadecimal, infinity and NaN spellings of `strtod` are outside
the calculator's inputs and are not modelled; the double result is
modelled as an exact rational. -/
def strtodSplit (s : List Char) : ℚ × List Char :=
  let s1 := s.dropWhile is_space
  let sign : Bool × List Char :=
    match s1 with
    | '-' :: rest => (true, rest)
    | '+' :: rest => (false, rest)
    | _ => (false, s1)
  let s2 := sign.2
  let ip := s2.takeWhile Char.isDigit
  let s3 := s2.drop ip.length
  let frac : List Char × List Char :=
    match s3 with
    | '.' :: rest => (rest.takeWhile Char.isDigit,
                      rest.drop (rest.takeWhile Char.isDigit).length)
    | _ => ([], s3)
  let fp := frac.1
  let s4 := frac.2
  if ip = [] && fp = [] then
    (0, s)
  else
    let ex : Int × List Char :=
      match s4 with
      | e :: rest =>
        if e = 'e' || e = 'E' then
          let esign : Bool × List Char :=
            match rest with
            | '-' :: r => (true, r)
            | '+' :: r => (false, r)
            | _ => (false, rest)
          let eds := esign.2.takeWhile Char.isDigit
          if eds = [] then (0, s4)
          else ((if esign.1 then -(digitsVal eds : Int) else (digitsVal eds : Int)),
                esign.2.drop eds.length)
        else (0, s4)
      | [] => (0, s4)
    let mantNum : Int := digitsVal ip * 10 ^ fp.length + digitsVal fp
    let signedNum : Int := if sign.1 then -mantNum else mantNum
    (ratNorm (signedNum * 10 ^ ex.1.toNat)
             ((10 : Int) ^ fp.length * 10 ^ (-ex.1).toNat), ex.2)

/-- `str_to_num`: convert a string to a number with `strtod`; if the end
pointer is not at the terminating NUL (unconsumed characters remain), an
"invalid floating point number" error is printed to stderr (the `Bool`
component) and `0` is returned. -/
def str_to_num (s : String) : Bool × ℚ :=
  let r := strtodSplit s.data
  if r.2 ≠ [] then (true, 0) else (false, r.1)

/-!  Operator precedence. -/

/-- `precedence`: the C conditional-chain precedence table, verbatim. -/
def precedence (op : TokType) : Int :=
  if op = T_PLUS then 5
  else if op = T_MINUS then 5
  else if op = T_STAR then 6
  else if op = T_SLASH then 6
  else if op = T_PERC then 6
  else if op = T_CARAT then 8
  else if op = T_LT then 4
  else if op = T_GT then 4
  else if op = T_LTE then 4
  else if op = T_GTE then 4
  else if op = T_EQU then 3
  else if op = T_NEQU then 3
  else if op = T_EQUAL then 0
  else if op = T_OPAREN then 0
  else if op = T_CPAREN then 0
  else if op = T_NOT then 7
  else if op = T_AND then 2
  else if op = T_OR then 1
  else if op = T_NUM then 10
  else if op = T_SYM then 10
  else -1

/-!  The value repository (linked list used as stack and queue). -/

/-- The C `ValType` enumeration. -/
inductive ValType where
  | V_NUM
  | V_OP
  | V_SYM
  deriving DecidableEq, Repr

/-- A stored value, mirroring the C `Value` struct minus its intrusive
`next` pointer (the chain is modelled by the containing list). -/
structure Value where
  vtype : ValType
  ttype : TokType
  val : ℚ
  name : String
  deriving DecidableEq, Repr

/-- The C `ValueRepo`.  The `head` chain is the list of values from the
head pointer; `crnt` is the suffix of the chain from the read cursor.
The `tail` pointer only serves `append`, which no claim treated here
touches, and cannot be represented without aliasing, so it is omitted. -/
structure ValueRepo where
  head : List Value
  crnt : List Value
  deriving DecidableEq, Repr

/-- `create_value`: build a value; the C `int v` argument is stored into
the double field. -/
def create_value (vtype : ValType) (ttype : TokType) (name : String) (v : Int) : Value :=
  { vtype := vtype, ttype := ttype, name := name, val := (v : ℚ) }

/-- `create_repo`: all pointers start NULL. -/
def create_repo : ValueRepo :=
  { head := [], crnt := [] }

/-- `push`: link a value in at the head.  A NULL repo pointer is a
no-op.  (The C code dereferences `val` before its own NULL check, so a
NULL value is undefined behaviour there; the model therefore takes a
non-null `val`.) -/
def push (ptr : Option ValueRepo) (val : Value) : Option ValueRepo :=
  match ptr with
  | some r => some { r with head := val :: r.head }
  | none => none

/-- `pop`: unlink and return the head value, or NULL when the repo
pointer is NULL or the repo is empty.  Returns the popped value and the
repo as left by the call. -/
def pop (ptr : Option ValueRepo) : Option Value × Option ValueRepo :=
  match ptr with
  | some r =>
    match r.head with
    | v :: rest => (some v, some { r with head := rest })
    | [] => (none, some r)
  | none => (none, none)

/-- `peek`: the head value without unlinking, or NULL. -/
def peek (ptr : Option ValueRepo) : Option Value :=
  match ptr with
  | some r => r.head.head?
  | none => none

/-- `get`: return the value at the read cursor and advance the cursor,
or NULL when the repo pointer is NULL or the cursor is at the end. -/
def get (ptr : Option ValueRepo) : Option Value × Option ValueRepo :=
  match ptr with
  | some r =>
    match r.crnt with
    | v :: rest => (some v, some { r with crnt := rest })
    | [] => (none, some r)
  | none => (none, none)

/-!  Converter and evaluator.

`convert` and `solve` are stubs in `src/calculator.c` (an empty `switch`
and an empty body); the spec's design notes say as much.  The following
definitions are therefore modelled from the spec (§4.2 and §4.3) on top
of the source-derived tokenizer, token types, precedence table and
numeric parser. -/

/-- A postfix token, tagged with its arity as §4.2 requires. -/
inductive PfTok where
  | num (v : ℚ)
  | sym (name : String)
  | unop (t : TokType)
  | binop (t : TokType)
  deriving DecidableEq, Repr

/-- An operator-stack entry of the converter: an open parenthesis or an
arity-tagged operator. -/
inductive StackOp where
  | paren
  | unop (t : TokType)
  | binop (t : TokType)
  deriving DecidableEq, Repr

/-- Modelled from the spec: precedence of an operator-stack entry.
Binary operators use the source `precedence` table; unary operators
(unary minus / not) sit at level 7 per the spec's operator table. -/
def opPrec (x : StackOp) : Int :=
  match x with
  | .paren => 0
  | .unop _ => 7
  | .binop t => precedence t

/-- Modelled from the spec: right-associative operators are `^`,
assignment `=`, and the unary operators; all others are left-associative. -/
def opRightAssoc (x : StackOp) : Bool :=
  match x with
  | .paren => false
  | .unop _ => true
  | .binop t => t = T_CARAT || t = T_EQUAL

/-- An operator-stack entry emitted to the output (never a parenthesis). -/
def stackOpToPf (x : StackOp) : PfTok :=
  match x with
  | .paren => .binop T_ERROR
  | .unop t => .unop t
  | .binop t => .binop t

/-- Modelled from the spec (§4.2 step 2): while the stack is non-empty,
its top is not an open parenthesis, and the left/right-associativity
precedence condition holds, pop operators to the output (accumulated in
reverse).  Returns the remaining stack and the extended output. -/
def popOps (x : StackOp) : List StackOp → List PfTok → List StackOp × List PfTok
  | [], out => ([], out)
  | y :: rest, out =>
    if y ≠ StackOp.paren
        && ((!opRightAssoc x && opPrec x ≤ opPrec y)
            || (opRightAssoc x && opPrec x < opPrec y)) then
      popOps x rest (stackOpToPf y :: out)
    else (y :: rest, out)

/-- Modelled from the spec (§4.2 step 4): pop operators to the output
until an open parenthesis, which is discarded; none on the stack is a
syntax error (`none`). -/
def popUntilParen : List StackOp → List PfTok → Option (List StackOp × List PfTok)
  | [], _ => none
  | StackOp.paren :: rest, out => some (rest, out)
  | y :: rest, out => popUntilParen rest (stackOpToPf y :: out)

/-- Modelled from the spec (§4.2 step 6): at end of stream pop all
remaining operators; a remaining open parenthesis is a syntax error. -/
def drainStack : List StackOp → List PfTok → Option (List PfTok)
  | [], out => some out
  | StackOp.paren :: _, _ => none
  | y :: rest, out => drainStack rest (stackOpToPf y :: out)

/-- The set of token types the converter treats as operators. -/
def isOperatorTok (t : TokType) : Bool :=
  t = T_PLUS || t = T_MINUS || t = T_STAR || t = T_SLASH || t = T_PERC
    || t = T_CARAT || t = T_LT || t = T_GT || t = T_LTE || t = T_GTE
    || t = T_EQU || t = T_NEQU || t = T_EQUAL || t = T_NOT || t = T_AND
    || t = T_OR

/-- Modelled from the spec (§4.2): the shunting-yard loop over the
source tokenizer.  `expectOperand` is the two-state unary/binary
disambiguation flag (§4.2 / design note); `out` is the output sequence
accumulated in reverse.  `fuel` bounds the number of tokens read; every
token but end-of-buffer consumes at least one character, so any fuel
beyond the buffer length is enough. -/
def convertLoop (fuel : Nat) (b : InputBuffer) (stack : List StackOp)
    (out : List PfTok) (expectOperand : Bool) : Except String (List PfTok) :=
  match fuel with
  | 0 => .error "out of fuel"
  | fuel + 1 =>
    let r := consume_token_core b
    match r.ttype with
    | T_END_BUF =>
      match drainStack stack out with
      | some out' => .ok out'.reverse
      | none => .error "unbalanced parentheses"
    | T_NUM =>
      let p := str_to_num (String.mk r.text)
      if p.1 then .error "invalid number"
      else convertLoop fuel r.buf stack (.num p.2 :: out) false
    | T_SYM => convertLoop fuel r.buf stack (.sym (String.mk r.text) :: out) false
    | T_OPAREN => convertLoop fuel r.buf (.paren :: stack) out true
    | T_CPAREN =>
      match popUntilParen stack out with
      | some (stack', out') => convertLoop fuel r.buf stack' out' false
      | none => .error "unbalanced parentheses"
    | T_ERROR => .error "unhandled character"
    | t =>
      if isOperatorTok t then
        let x : StackOp :=
          if expectOperand && (t = T_MINUS || t = T_NOT) then .unop t
          else .binop t
        let so := popOps x stack out
        convertLoop fuel r.buf (x :: so.1) so.2 true
      else .error "unexpected token"

/-- Modelled from the spec: `convert` tokenizes the whole input and
produces the postfix sequence (the C stub's intended behaviour). -/
def convert (s : String) : Except String (List PfTok) :=
  convertLoop (s.length + 2) { buf := s.data, idx := 0 } [] [] true

/-- A value-stack entry of the evaluator: a resolved number or a
still-unresolved symbol reference carrying its name (§4.3). -/
inductive Entry where
  | num (v : ℚ)
  | symref (name : String)
  deriving DecidableEq, Repr

/-- The variable store: name-to-value mapping (§4.4). -/
abbrev Store := List (String × ℚ)

/-- `get` of the variable store: NotFound is `none`. -/
def storeGet (st : Store) (n : String) : Option ℚ :=
  match st with
  | [] => none
  | (k, v) :: rest => if k = n then some v else storeGet rest n

/-- `set` of the variable store: insert or overwrite. -/
def storeSet (st : Store) (n : String) (v : ℚ) : Store :=
  match st with
  | [] => [(n, v)]
  | (k, w) :: rest => if k = n then (k, v) :: rest else (k, w) :: storeSet rest n v

/-- Resolve a value-stack entry to a number; an undefined symbol lookup
fails (§4.3). -/
def resolve (st : Store) : Entry → Except String ℚ
  | .num v => .ok v
  | .symref n =>
    match storeGet st n with
    | some v => .ok v
    | none => .error ("undefined variable: " ++ n)

/-- Nonzero-is-true truthiness (§4.3 / glossary). -/
def truthy (q : ℚ) : Bool := q ≠ 0

/-- Truncation toward zero, as C `fmod` requires. -/
def qtrunc (q : ℚ) : Int :=
  if 0 ≤ q then q.floor else q.ceil

/-- C `fmod` on the rational model: `l - trunc(l / r) * r`. -/
def qfmod (l r : ℚ) : ℚ :=
  qsub l (qmul ((qtrunc (qdiv l r) : Int) : ℚ) r)

/-- Modelled from the spec (§4.3): apply a binary operator (other than
assignment).  Division and modulo by zero are evaluation errors;
comparisons yield 1 or 0; `and`/`or` follow truthiness.  Exponentiation
is modelled for integer exponents (the rational model has no irrational
powers; no claim exercises the non-integer case). -/
def applyBinop (t : TokType) (l r : ℚ) : Except String ℚ :=
  match t with
  | T_PLUS => .ok (qadd l r)
  | T_MINUS => .ok (qsub l r)
  | T_STAR => .ok (qmul l r)
  | T_SLASH => if r = 0 then .error "divide by zero" else .ok (qdiv l r)
  | T_PERC => if r = 0 then .error "modulo by zero" else .ok (qfmod l r)
  | T_CARAT =>
    if r.den = 1 then
      if 0 ≤ r.num then .ok (l ^ r.num.toNat)
      else if l = 0 then .error "zero to negative power"
      else .ok ((l ^ (-r.num).toNat)⁻¹)
    else .error "non-integer exponent"
  | T_LT => .ok (if l < r then 1 else 0)
  | T_GT => .ok (if r < l then 1 else 0)
  | T_LTE => .ok (if l ≤ r then 1 else 0)
  | T_GTE => .ok (if r ≤ l then 1 else 0)
  | T_EQU => .ok (if l = r then 1 else 0)
  | T_NEQU => .ok (if l = r then 0 else 1)
  | T_AND => .ok (if truthy l && truthy r then 1 else 0)
  | T_OR => .ok (if truthy l || truthy r then 1 else 0)
  | _ => .error "not a binary operator"

/-- Modelled from the spec (§4.3): apply a unary operator. -/
def applyUnop (t : TokType) (v : ℚ) : Except String ℚ :=
  match t with
  | T_MINUS => .ok (qneg v)
  | T_NOT => .ok (if truthy v then 0 else 1)
  | _ => .error "not a unary operator"

/-- Modelled from the spec (§4.3): evaluate a postfix sequence left to
right over a value stack (head = top).  Numbers push, symbols push
unresolved references, binary operators pop right then left, `=` binds
its symbol target in the store, and at the end exactly one entry must
remain. -/
def solveAux : List PfTok → Store → List Entry → Except String (ℚ × Store)
  | [], st, [e] => do
    let v ← resolve st e
    .ok (v, st)
  | [], _, _ => .error "malformed expression"
  | .num v :: rest, st, stack => solveAux rest st (.num v :: stack)
  | .sym n :: rest, st, stack => solveAux rest st (.symref n :: stack)
  | .unop t :: rest, st, stack =>
    match stack with
    | e :: stack' => do
      let v ← resolve st e
      let w ← applyUnop t v
      solveAux rest st (.num w :: stack')
    | [] => .error "malformed expression"
  | .binop T_EQUAL :: rest, st, stack =>
    match stack with
    | re :: le :: stack' => do
      let rv ← resolve st re
      match le with
      | .symref n => solveAux rest (storeSet st n rv) (.num rv :: stack')
      | .num _ => .error "invalid assignment target"
    | _ => .error "malformed expression"
  | .binop t :: rest, st, stack =>
    match stack with
    | re :: le :: stack' => do
      let rv ← resolve st re
      let lv ← resolve st le
      let w ← applyBinop t lv rv
      solveAux rest st (.num w :: stack')
    | _ => .error "malformed expression"

/-- Modelled from the spec: `solve` evaluates a postfix sequence against
a variable store, returning the result and the possibly updated store
(the C stub's intended behaviour). -/
def solve (expr : List PfTok) (st : Store) : Except String (ℚ × Store) :=
  solveAux expr st []

/-!  Helper lemmas about the buffer primitives. -/

/-- A successful `read_char` exposes the cursor character at the head of
the dropped suffix. -/
lemma read_char_drop {b : InputBuffer} {c : Char} (h : read_char b = some c) :
    b.buf.drop b.idx = c :: b.buf.drop (b.idx + 1) := by
  rcases List.getElem?_eq_some_iff.mp h with ⟨hlt, he⟩
  rw [List.drop_eq_getElem_cons hlt, he]

/-- A successful `read_char` means the cursor is in bounds. -/
lemma read_char_lt {b : InputBuffer} {c : Char} (h : read_char b = some c) :
    b.idx < b.buf.length :=
  (List.getElem?_eq_some_iff.mp h).1

/-- `consume_char` after a successful read advances the cursor by one. -/
lemma consume_char_eq {b : InputBuffer} {c : Char} (h : read_char b = some c) :
    consume_char b = { b with idx := b.idx + 1 } := by
  simp [consume_char, read_char_lt h]

/-- Skipping whitespace at a non-whitespace character is the identity. -/
lemma skip_ws_eq {b : InputBuffer} {c : Char} (h : read_char b = some c)
    (hc : is_ws c = false) : skip_ws b = b := by
  simp [skip_ws, read_char_drop h, List.takeWhile_cons, hc]

/-- Dropping the length of a `takeWhile` prefix leaves the `dropWhile`
suffix. -/
lemma drop_length_takeWhile (p : Char → Bool) :
    ∀ l : List Char, l.drop (l.takeWhile p).length = l.dropWhile p := by
  intro l
  induction l with
  | nil => rfl
  | cons c t ih =>
    by_cases hc : p c
    · simp [List.takeWhile_cons, List.dropWhile_cons, hc, ih]
    · simp [List.takeWhile_cons, List.dropWhile_cons, hc]

/-- The head of a `dropWhile` suffix fails the predicate. -/
lemma head_dropWhile_false (p : Char → Bool) :
    ∀ (l : List Char) (d : Char), (l.dropWhile p).head? = some d → p d = false := by
  intro l
  induction l with
  | nil => intro d h; simp at h
  | cons c t ih =>
    intro d h
    by_cases hc : p c
    · exact ih d (by simpa [List.dropWhile_cons, hc] using h)
    · simp [List.dropWhile_cons, hc] at h
      simpa [← h] using (Bool.not_eq_true _).mp hc

/-!  Claim theorems. -/

/-- C1.  Converting the input text "3 + 4 * 2" produces the postfix
token sequence 3 4 2 * +, and solving that postfix sequence yields 11
(the converter and evaluator are modelled from the spec on top of the
source tokenizer, since the C `convert`/`solve` bodies are stubs). -/
theorem c1_convert_and_solve :
    convert "3 + 4 * 2" =
      Except.ok [PfTok.num 3, PfTok.num 4, PfTok.num 2,
                 PfTok.binop T_STAR, PfTok.binop T_PLUS] ∧
    solve [PfTok.num 3, PfTok.num 4, PfTok.num 2,
           PfTok.binop T_STAR, PfTok.binop T_PLUS] [] =
      Except.ok (11, []) := by
  constructor <;> decide

/-- The sixteen token types the converter treats as operators. -/
def operatorToks : List TokType :=
  [T_PLUS, T_MINUS, T_STAR, T_SLASH, T_PERC, T_CARAT, T_LT, T_GT,
   T_LTE, T_GTE, T_EQU, T_NEQU, T_EQUAL, T_NOT, T_AND, T_OR]

/-- C2.  The `precedence` function realises the spec's operator table:
or 1, and 2, equality 3, comparisons 4, additive 5, multiplicative 6,
unary (not / unary minus, both ride on `T_NOT`) 7, exponent 8, and
assignment 0, the lowest value among all operators. -/
theorem c2_precedence_table :
    precedence T_OR = 1 ∧ precedence T_AND = 2 ∧
    precedence T_EQU = 3 ∧ precedence T_NEQU = 3 ∧
    precedence T_LT = 4 ∧ precedence T_GT = 4 ∧
    precedence T_LTE = 4 ∧ precedence T_GTE = 4 ∧
    precedence T_PLUS = 5 ∧ precedence T_MINUS = 5 ∧
    precedence T_STAR = 6 ∧ precedence T_SLASH = 6 ∧ precedence T_PERC = 6 ∧
    precedence T_NOT = 7 ∧ precedence T_CARAT = 8 ∧
    precedence T_EQUAL = 0 ∧
    (operatorToks.all fun t => decide (precedence T_EQUAL ≤ precedence t)) = true := by
  decide

/-- C5.  Whenever `strtod` leaves unconsumed trailing characters,
`str_to_num` reports the malformed literal (prints the "invalid
floating point number" diagnostic, the `true` flag) instead of silently
returning; the returned value is the documented fallback 0. -/
theorem c5_malformed_number_reported :
    ∀ s : String, (strtodSplit s.data).2 ≠ [] → str_to_num s = (true, 0) := by
  intro s h
  simp [str_to_num, h]

/-- Witness for C5 at the concrete malformed literal "1.2.3". -/
theorem c5_witness :
    (strtodSplit "1.2.3".data).2 ≠ [] ∧ str_to_num "1.2.3" = (true, 0) :=
  ⟨by decide, c5_malformed_number_reported "1.2.3" (by decide)⟩

/-- C7.  Whenever evaluation reaches a division or modulo whose right
operand is zero, it fails with an evaluation error (no infinity/NaN
result); in particular the whole pipeline on "1 / 0" fails that way
(evaluator modelled from the spec, the C `solve` being a stub). -/
theorem c7_divide_by_zero_is_error :
    ∀ (rest : List PfTok) (st : Store) (stack : List Entry) (l : ℚ),
      solveAux (PfTok.binop T_SLASH :: rest) st
          (Entry.num 0 :: Entry.num l :: stack) = Except.error "divide by zero" ∧
      solveAux (PfTok.binop T_PERC :: rest) st
          (Entry.num 0 :: Entry.num l :: stack) = Except.error "modulo by zero" ∧
      (do
        let e ← convert "1 / 0"
        solve e ([] : Store)) = Except.error "divide by zero" := by
  intro rest st stack l
  exact ⟨rfl, rfl, by decide⟩

/-- C8.  The tokenizer is stateless beyond the cursor: two token reads
over the same buffer contents from the same index yield the same token
and leave the cursor at the same position, whatever the previous global
token was. -/
theorem c8_tokenizer_deterministic :
    ∀ s1 s2 : TokState, s1.buffer = s2.buffer →
      (consume_token s1).tok = (consume_token s2).tok ∧
      (consume_token s1).buffer = (consume_token s2).buffer := by
  intro s1 s2 h
  unfold consume_token
  rw [h]
  exact ⟨rfl, rfl⟩

/-- Witness for C8: same buffer, different previous global tokens. -/
theorem c8_witness :
    (consume_token ⟨⟨"1+2".data, 0⟩, ⟨T_END_BUF, []⟩⟩).tok
        = (consume_token ⟨⟨"1+2".data, 0⟩, ⟨T_PLUS, ['+']⟩⟩).tok ∧
    (consume_token ⟨⟨"1+2".data, 0⟩, ⟨T_END_BUF, []⟩⟩).buffer
        = (consume_token ⟨⟨"1+2".data, 0⟩, ⟨T_PLUS, ['+']⟩⟩).buffer :=
  c8_tokenizer_deterministic _ _ rfl

/-- C9.  `pop`, `peek` and `get` on an empty repository (empty head,
respectively empty current pointer) or on a NULL repository pointer
return NULL rather than failing, and `pop` on an empty repository
leaves it unchanged. -/
theorem c9_empty_and_null_safe :
    ∀ r : ValueRepo, r.head = [] → r.crnt = [] →
      pop (some r) = (none, some r) ∧
      peek (some r) = none ∧
      get (some r) = (none, some r) ∧
      pop none = (none, none) ∧
      peek none = none ∧
      get none = (none, none) := by
  intro r h1 h2
  refine ⟨?_, ?_, ?_, rfl, rfl, rfl⟩ <;> simp [pop, peek, get, h1, h2]

/-- Witness for C9 at the freshly created empty repository. -/
theorem c9_witness :
    pop (some create_repo) = (none, some create_repo) ∧
    peek (some create_repo) = none ∧
    get (some create_repo) = (none, some create_repo) ∧
    pop none = (none, none) ∧
    peek none = none ∧
    get none = (none, none) :=
  c9_empty_and_null_safe create_repo rfl rfl

/-- The token type emitted when the character after `c` is `=`. -/
def twoCharTok (c : Char) : TokType :=
  if c = '<' then T_LTE else if c = '>' then T_GTE
  else if c = '=' then T_EQU else T_NEQU

/-- The token type emitted when the character after `c` is not `=`. -/
def oneCharTok (c : Char) : TokType :=
  if c = '<' then T_LT else if c = '>' then T_GT
  else if c = '=' then T_EQUAL else T_NOT

/-- C3.  At a cursor position holding one of `<`, `>`, `=`, `!`, the
tokenizer peeks one character ahead: if it is `=` the two-character
token (LTE, GTE, EQU, NEQU) is emitted and both characters are
consumed; otherwise the single-character token (LT, GT, EQUAL, NOT) is
emitted and only the first character is consumed. -/
theorem c3_lookahead_operators :
    ∀ (b : InputBuffer) (c : Char), read_char b = some c →
      (c = '<' ∨ c = '>' ∨ c = '=' ∨ c = '!') →
      (read_char (consume_char b) = some '=' →
        (consume_token_core b).ttype = twoCharTok c ∧
        (consume_token_core b).text = [c, '='] ∧
        (consume_token_core b).buf = { b with idx := b.idx + 2 }) ∧
      (read_char (consume_char b) ≠ some '=' →
        (consume_token_core b).ttype = oneCharTok c ∧
        (consume_token_core b).text = [c] ∧
        (consume_token_core b).buf = { b with idx := b.idx + 1 }) := by
  intro b c hc hcase
  have hsw : skip_ws b = b := by
    rcases hcase with rfl | rfl | rfl | rfl <;> exact skip_ws_eq hc (by decide)
  have hone : consume_char b = { b with idx := b.idx + 1 } := consume_char_eq hc
  constructor
  · intro h2
    rw [hone] at h2
    have htwo : consume_char { b with idx := b.idx + 1 } = { b with idx := b.idx + 2 } :=
      consume_char_eq h2
    rcases hcase with rfl | rfl | rfl | rfl <;>
      simp [consume_token_core, dispatch_token, hsw, hc, h2, hone, htwo,
        twoCharTok]
  · intro h2
    rw [hone] at h2
    rcases hcase with rfl | rfl | rfl | rfl <;>
      simp [consume_token_core, dispatch_token, hsw, hc, h2, hone, oneCharTok]

/-- Witness for C3 on the buffer "<=" (two-character case). -/
theorem c3_witness :
    (consume_token_core ⟨"<=".data, 0⟩).ttype = twoCharTok '<' ∧
    (consume_token_core ⟨"<=".data, 0⟩).text = ['<', '='] ∧
    (consume_token_core ⟨"<=".data, 0⟩).buf = ⟨"<=".data, 0 + 2⟩ :=
  (c3_lookahead_operators ⟨"<=".data, 0⟩ '<' (by decide)
    (Or.inl rfl)).1 (by decide)

/-- The ten decimal digit characters. -/
def digitChars : List Char :=
  ['0', '1', '2', '3', '4', '5', '6', '7', '8', '9']

/-- The predicate of characters a numeric-literal run may contain. -/
def numRunChar (ch : Char) : Bool :=
  ch.isDigit || ch = '.'

/-- At a digit, the tokenizer dispatches to `read_number`. -/
lemma consume_token_core_digit {b : InputBuffer} {c : Char}
    (hc : read_char b = some c) (hd : c ∈ digitChars) :
    consume_token_core b = ⟨T_NUM, (read_number b).1, none, (read_number b).2⟩ := by
  have hsw : skip_ws b = b := by
    fin_cases hd <;> exact skip_ws_eq hc (by decide)
  rw [consume_token_core, hsw]
  fin_cases hd <;> simp [dispatch_token, hc, read_number]

/-- C4 counterexample.  On the buffer "1.2.3" the tokenizer emits a
single numeric-literal token whose text contains two decimal points, so
the run is not limited to at most one decimal-point character. -/
theorem c4_counterexample :
    (consume_token_core ⟨"1.2.3".data, 0⟩).ttype = T_NUM ∧
    (consume_token_core ⟨"1.2.3".data, 0⟩).text = "1.2.3".data ∧
    ¬ ((((consume_token_core ⟨"1.2.3".data, 0⟩).text.filter
          (fun ch => ch = '.')).length) ≤ 1) := by
  refine ⟨by decide, by decide, by decide⟩

/-- C4 (amended).  At a digit the tokenizer consumes a maximal run of
digit and decimal-point characters (not limited to one point): it emits
a numeric-literal token whose non-empty text consists of such
characters, advances the cursor by exactly the text length, and the
character at the new cursor (if any) is neither a digit nor a point.
(The parse of the accumulated text to a numeric value is `str_to_num`,
treated in C5; the stub converter does not yet call it.) -/
theorem c4_maximal_digit_run :
    ∀ (b : InputBuffer) (c : Char), read_char b = some c → c ∈ digitChars →
      (consume_token_core b).ttype = T_NUM ∧
      (consume_token_core b).text ≠ [] ∧
      ((consume_token_core b).text.all numRunChar) = true ∧
      (consume_token_core b).buf.idx = b.idx + (consume_token_core b).text.length ∧
      (∀ d, read_char (consume_token_core b).buf = some d → numRunChar d = false) := by
  intro b c hc hd
  rw [consume_token_core_digit hc hd]
  have hdrop : b.buf.drop b.idx = c :: b.buf.drop (b.idx + 1) := read_char_drop hc
  have hcnum : numRunChar c = true := by fin_cases hd <;> decide
  refine ⟨rfl, ?_, ?_, rfl, ?_⟩
  · rw [read_number, hdrop]
    simp [numRunChar] at hcnum
    simp [List.takeWhile_cons, hcnum]
  · exact List.all_takeWhile
  · intro d hread
    rw [read_number] at hread
    rw [read_char] at hread
    rw [← List.head?_drop, ← List.drop_drop, drop_length_takeWhile] at hread
    exact head_dropWhile_false _ _ _ hread

/-- Witness for C4 on the buffer "42x". -/
theorem c4_witness :
    (consume_token_core ⟨"42x".data, 0⟩).ttype = T_NUM ∧
    (consume_token_core ⟨"42x".data, 0⟩).text ≠ [] ∧
    numRunChar 'x' = false := by
  have h := c4_maximal_digit_run ⟨"42x".data, 0⟩ '4' (by decide) (by decide)
  exact ⟨h.1, h.2.1, h.2.2.2.2 'x' (by decide)⟩

/-- The characters the tokenizer's `switch` handles as operators. -/
def is_op_char (c : Char) : Bool :=
  c = '+' || c = '-' || c = '*' || c = '/' || c = '%' || c = '^'
    || c = '(' || c = ')' || c = '<' || c = '>' || c = '=' || c = '!'

/-- C6 counterexample.  On the buffer "#" the tokenizer emits an error
token, but its text is empty: it does not carry the offending '#' (the
character goes to the stderr diagnostic instead). -/
theorem c6_counterexample :
    (consume_token_core ⟨"#".data, 0⟩).ttype = T_ERROR ∧
    ¬ ('#' ∈ (consume_token_core ⟨"#".data, 0⟩).text) := by
  refine ⟨by decide, by decide⟩

/-- C6 (amended).  For every input character that is not whitespace, an
operator character, alphabetic, underscore, or a digit, the tokenizer
emits an error token with empty text, reports the offending character
in its stderr diagnostic, and does not stop: it consumes the character,
returns normally, and leaves the decision to abort to the caller. -/
theorem c6_error_token :
    ∀ (b : InputBuffer) (c : Char), read_char b = some c →
      is_ws c = false → is_op_char c = false →
      (c.isAlpha || c = '_') = false → c.isDigit = false →
      (consume_token_core b).ttype = T_ERROR ∧
      (consume_token_core b).text = [] ∧
      (consume_token_core b).diag = some c ∧
      (consume_token_core b).buf = { b with idx := b.idx + 1 } := by
  intro b c hc hws hop halpha hdigit
  have hsw : skip_ws b = b := skip_ws_eq hc hws
  have hone : consume_char b = { b with idx := b.idx + 1 } := consume_char_eq hc
  simp only [is_op_char, Bool.or_eq_false_iff, decide_eq_false_iff_not] at hop
  obtain ⟨⟨⟨⟨⟨⟨⟨⟨⟨⟨⟨h1, h2⟩, h3⟩, h4⟩, h5⟩, h6⟩, h7⟩, h8⟩, h9⟩, h10⟩, h11⟩, h12⟩ := hop
  rw [consume_token_core, hsw]
  simp [dispatch_token, hc, h1, h2, h3, h4, h5, h6, h7, h8, h9, h10, h11, h12,
    halpha, hdigit, hone]

/-- Witness for C6 on the buffer "#". -/
theorem c6_witness :
    (consume_token_core ⟨"#".data, 0⟩).ttype = T_ERROR ∧
    (consume_token_core ⟨"#".data, 0⟩).text = [] ∧
    (consume_token_core ⟨"#".data, 0⟩).diag = some '#' ∧
    (consume_token_core ⟨"#".data, 0⟩).buf = ⟨"#".data, 0 + 1⟩ :=
  c6_error_token ⟨"#".data, 0⟩ '#' (by decide) (by decide) (by decide)
    (by decide) (by decide)

/-- C10.  For any non-NULL repository and (non-NULL) value, `push`
followed by `pop` returns exactly the pushed value and restores the
head to what it was before the push. -/
theorem c10_push_pop_roundtrip :
    ∀ (r : ValueRepo) (v : Value), pop (push (some r) v) = (some v, some r) := by
  intro r v
  rfl

end Calculator
